import Mathlib

/-!
Shallow embedding of the environment lifecycle orchestrator in
`contrib/ovirt/lib/ovirttestenv/__init__.py` (module-level activation
helpers and the `OvirtPrefix` class), together with proofs of the frozen
claims about it.

Modelling conventions:
* Remote API calls are recorded as events in a trace; a raised
  `RequestError` or a convergence-timeout assertion failure is an
  `Except.error` result.
* `testlib.assert_true_within_short/_long` (this repository's `testlib`
  module, not present under `src/`) is modelled from the spec as a
  bounded poll: the polled condition is abstracted by the first time at
  which it becomes true (`Option Nat`), and the poll succeeds iff that
  time exists and is within the bound.  The short/long bounds are left
  as parameters.
* Python integers and strings become `Nat` and `String`; Python `None`
  becomes `Option.none`; truthiness of an optional argument becomes
  `Option.isSome`.
-/

namespace OvirtTestenv

/-- Modelled from the spec: `testlib.assert_true_within_*` ("convergence
polling: repeatedly querying observed state until it matches a target
state or a timeout elapses").  The polled condition is abstracted by
`firstTrue`, the first instant at which it holds; the poll succeeds iff
that instant exists and is within `timeout`. -/
def assert_true_within (timeout : Nat) (firstTrue : Option Nat) : Bool :=
  match firstTrue with
  | Option.none => false
  | Option.some t => decide (t ≤ timeout)

/-- A storage domain as seen by the activation helpers: its name, the id
of its owning data center (`sd.get_data_center().get_id()`), and its
`master` flag. -/
structure StorageDomain where
  name : String
  dataCenter : Nat
  master : Bool
deriving DecidableEq, Repr

/-- Behaviour of the remote management API towards storage-domain
requests and polls: which domains' activate/deactivate requests raise
`RequestError`, and the first time at which each domain's state reports
`active` (resp. `maintenance`) when polled through its data center. -/
structure SdApi where
  requestFails : String → Bool
  activeAt : String → Option Nat
  maintenanceAt : String → Option Nat

/-- One recorded remote-API interaction. -/
inductive ApiEvent where
  | sdActivate (name : String)
  | sdDeactivate (name : String)
  | sdPoll (dataCenter : Nat) (name : String) (target : String)
  | hostActivate (name : String) (accepted : Bool)
  | hostDeactivate (name : String) (accepted : Bool)
  | hostPoll (name : String) (target : String)
deriving DecidableEq, Repr

/-- Failure taxonomy of the activation helpers: a propagated
`RequestError`, or an `assert_true_within_*` timeout. -/
inductive ApiError where
  | requestError
  | convergenceTimeout
deriving DecidableEq, Repr

/-- First loop of `_activate_storage_domains`: `for sd in sds:
sd.activate()`.  Each request is recorded; a failing request raises
immediately (no retry), so later domains get no request. -/
def sdActivateRequests (api : SdApi) : List StorageDomain → List ApiEvent × Except ApiError Unit
  | [] => ([], Except.ok ())
  | sd :: rest =>
    if api.requestFails sd.name then
      ([ApiEvent.sdActivate sd.name], Except.error ApiError.requestError)
    else
      let r := sdActivateRequests api rest
      (ApiEvent.sdActivate sd.name :: r.1, r.2)

/-- First loop of `_deactivate_storage_domains`: `for sd in sds:
sd.deactivate()`. -/
def sdDeactivateRequests (api : SdApi) : List StorageDomain → List ApiEvent × Except ApiError Unit
  | [] => ([], Except.ok ())
  | sd :: rest =>
    if api.requestFails sd.name then
      ([ApiEvent.sdDeactivate sd.name], Except.error ApiError.requestError)
    else
      let r := sdDeactivateRequests api rest
      (ApiEvent.sdDeactivate sd.name :: r.1, r.2)

/-- Second loop of `_activate_storage_domains` /
`_deactivate_storage_domains`: each domain's owning data center is
fetched and polled until `dc.storagedomains.get(sd.name).status.state`
equals `target`, with bound `timeout`; a timeout aborts the loop with a
convergence failure. -/
def sdStatePolls (timeout : Nat) (stateAt : String → Option Nat) (target : String) :
    List StorageDomain → List ApiEvent × Except ApiError Unit
  | [] => ([], Except.ok ())
  | sd :: rest =>
    let e := ApiEvent.sdPoll sd.dataCenter sd.name target
    if assert_true_within timeout (stateAt sd.name) then
      let r := sdStatePolls timeout stateAt target rest
      (e :: r.1, r.2)
    else
      ([e], Except.error ApiError.convergenceTimeout)

/-- `_activate_storage_domains(api, sds)`: issue an activate request to
every domain in the group, then poll each domain's owning data center
for `active` within the long bound. -/
def _activate_storage_domains (longTimeout : Nat) (api : SdApi) (sds : List StorageDomain) :
    List ApiEvent × Except ApiError Unit :=
  match sdActivateRequests api sds with
  | (t, Except.error e) => (t, Except.error e)
  | (t, Except.ok _) =>
    let r := sdStatePolls longTimeout api.activeAt "active" sds
    (t ++ r.1, r.2)

/-- `_deactivate_storage_domains(api, sds)`: symmetric, polling for
`maintenance`. -/
def _deactivate_storage_domains (longTimeout : Nat) (api : SdApi) (sds : List StorageDomain) :
    List ApiEvent × Except ApiError Unit :=
  match sdDeactivateRequests api sds with
  | (t, Except.error e) => (t, Except.error e)
  | (t, Except.ok _) =>
    let r := sdStatePolls longTimeout api.maintenanceAt "maintenance" sds
    (t ++ r.1, r.2)

/-- A host as seen by the activation helpers: its name, how many times
in a row its `deactivate()` call raises `RequestError` before being
accepted, whether its `activate()` call raises `RequestError`, and the
first polling instants at which its state reports `up` (resp.
`maintenance`). -/
structure HostModel where
  name : String
  deactivateRejects : Nat
  activateRejected : Bool
  upAt : Option Nat
  maintenanceAt : Option Nat
deriving DecidableEq, Repr

/-- Termination measure for the deactivation retry loop: total pending
rejections plus queue length.  Each accepted request shortens the queue;
each rejected request consumes one pending rejection. -/
def hostsMeasure (l : List HostModel) : Nat :=
  (l.map (fun h => h.deactivateRejects)).sum + l.length

/-- The `while hosts:` retry loop of `_deactivate_all_hosts`, on the
queue in popping order: the Python code pops from the END of the list
(`hosts.pop()`) and re-inserts a rejected host at the FRONT
(`hosts.insert(0, host)`), so here the queue is kept reversed — the
head is the next host popped, and re-insertion appends at the back.
Returns the sequence of deactivation attempts `(name, accepted)`. -/
def deactLoopR : List HostModel → List (String × Bool)
  | [] => []
  | h :: rest =>
    if h.deactivateRejects = 0 then
      (h.name, true) :: deactLoopR rest
    else
      (h.name, false) ::
        deactLoopR (rest ++ [{ h with deactivateRejects := h.deactivateRejects - 1 }])
termination_by l => hostsMeasure l
decreasing_by
  · simp [hostsMeasure]
    omega
  · simp only [hostsMeasure, List.map_append, List.map_cons, List.map_nil, List.sum_append,
      List.sum_cons, List.sum_nil, List.length_append, List.length_cons, List.length_nil]
    omega

/-- Poll loop shared by the two host helpers:
`testlib.assert_true_within_short(lambda: api.hosts.get(host.name).status.state == target)`
for each host in the API's host list, aborting at the first timeout. -/
def hostStatePolls (shortTimeout : Nat) (stateAt : HostModel → Option Nat) (target : String) :
    List HostModel → List ApiEvent × Except ApiError Unit
  | [] => ([], Except.ok ())
  | h :: rest =>
    let e := ApiEvent.hostPoll h.name target
    if assert_true_within shortTimeout (stateAt h) then
      let r := hostStatePolls shortTimeout stateAt target rest
      (e :: r.1, r.2)
    else
      ([e], Except.error ApiError.convergenceTimeout)

/-- `_deactivate_all_hosts(api)`: run the retry loop over the host list
(popping from the end, re-queueing rejections at the front), then poll
every host of `api.hosts.list()` for `maintenance` within the short
bound. -/
def _deactivate_all_hosts (shortTimeout : Nat) (hosts : List HostModel) :
    List ApiEvent × Except ApiError Unit :=
  let attempts := (deactLoopR hosts.reverse).map (fun a => ApiEvent.hostDeactivate a.1 a.2)
  let polls := hostStatePolls shortTimeout (fun h => h.maintenanceAt) "maintenance" hosts
  (attempts ++ polls.1, polls.2)

/-- `_activate_all_hosts(api)`: issue one activate request per host,
with `except RequestError: pass` (the request is recorded as rejected
but the exception is swallowed), then poll every host — including the
rejected ones — for `up` within the short bound. -/
def _activate_all_hosts (shortTimeout : Nat) (hosts : List HostModel) :
    List ApiEvent × Except ApiError Unit :=
  let requests := hosts.map (fun h => ApiEvent.hostActivate h.name (!h.activateRejected))
  let polls := hostStatePolls shortTimeout (fun h => h.upAt) "up" hosts
  (requests ++ polls.1, polls.2)

/-- A storage domain inside the state model used for the
full-environment sweeps: its name, `master` flag and whether its state
currently reports `active`. -/
structure SdEnt where
  name : String
  master : Bool
  active : Bool
deriving DecidableEq, Repr

/-- A data center with its storage domains
(`dc.storagedomains.list()`). -/
structure DataCenter where
  id : Nat
  sds : List SdEnt
deriving DecidableEq, Repr

/-- Effect of `_activate_storage_domains` / `_deactivate_storage_domains`
on one data center, once the group's requests have converged: every
domain selected by `sel` (the `[sd for sd in sds if ...]` comprehension)
has its state set to `active = value`. -/
def dcSetGroup (sel : SdEnt → Bool) (value : Bool) (dc : DataCenter) : DataCenter :=
  { dc with sds := dc.sds.map (fun sd => if sel sd then { sd with active := value } else sd) }

/-- `_deactivate_all_storage_domains(api)` as a sequence of
whole-environment states, one per group boundary: for each data center
in order, first the non-master group is deactivated, then the master
group. -/
def deactivateAllSdStates : List DataCenter → List (List DataCenter)
  | [] => []
  | dc :: rest =>
    let d1 := dcSetGroup (fun sd => !sd.master) false dc
    let d2 := dcSetGroup (fun sd => sd.master) false d1
    (d1 :: rest) :: (d2 :: rest) :: (deactivateAllSdStates rest).map (fun s => d2 :: s)

/-- `_activate_all_storage_domains(api)` as a sequence of
whole-environment states, one per group boundary: for each data center
in order, first the master group is activated, then the non-master
group. -/
def activateAllSdStates : List DataCenter → List (List DataCenter)
  | [] => []
  | dc :: rest =>
    let d1 := dcSetGroup (fun sd => sd.master) true dc
    let d2 := dcSetGroup (fun sd => !sd.master) true d1
    (d1 :: rest) :: (d2 :: rest) :: (activateAllSdStates rest).map (fun s => d2 :: s)

/-- The §3 invariant for one data center: if any non-master domain is
active then every master domain is active. -/
def dcMasterInv (dc : DataCenter) : Bool :=
  if dc.sds.any (fun sd => !sd.master && sd.active) then
    dc.sds.all (fun sd => !sd.master || sd.active)
  else
    true

/-- The §3 invariant over the whole environment: in every data center, a
master domain is active whenever any non-master domain in the same data
center is active. -/
def masterInv (env : List DataCenter) : Bool :=
  env.all dcMasterInv

/-- One action of the snapshot transaction `OvirtPrefix.create_snapshots`.
Events record actions that completed successfully; hosts are identified
by a numeric id. -/
inductive SnapEvent where
  | deactivateEnv
  | activateEnv
  | engineStop
  | engineStart
  | getApi
  | vdsmdStop (h : Nat)
  | vdsmdStart (h : Nat)
  | supervdsmdStop (h : Nat)
  | supervdsmdStart (h : Nat)
  | capture (name : String)
deriving DecidableEq, Repr

/-- Whether an event is one of the compensating actions registered on
the rollback stack (as opposed to a forward quiesce/capture step). -/
def SnapEvent.isUndo : SnapEvent → Bool
  | SnapEvent.activateEnv => true
  | SnapEvent.engineStart => true
  | SnapEvent.getApi => true
  | SnapEvent.vdsmdStart _ => true
  | SnapEvent.supervdsmdStart _ => true
  | _ => false

/-- Injected failure point inside `create_snapshots`: which forward step
raises. -/
inductive SnapFault where
  | atDeactivate
  | atEngineStop
  | atVdsmdStop (h : Nat)
  | atSupervdsmdStop (h : Nat)
  | atCapture
deriving DecidableEq, Repr

/-- A fault is meaningful for a given host list when a host-step fault
names a host that is actually in the environment. -/
def SnapFault.valid (hosts : List Nat) : SnapFault → Prop
  | SnapFault.atVdsmdStop h => h ∈ hosts
  | SnapFault.atSupervdsmdStop h => h ∈ hosts
  | _ => True

instance (hosts : List Nat) (f : SnapFault) : Decidable (f.valid hosts) := by
  cases f <;> simp [SnapFault.valid] <;> infer_instance

/-- The `stop_host` closure of `create_snapshots`, run for host `h`:
stop `vdsmd` and register its restart, then stop `supervdsmd` and
register its restart.  Returns the events of the successful actions, the
undos registered (in registration order), and this job's own failure, if
any.  A failing stop performs nothing and registers no undo. -/
def stopHostJob (fault : Option SnapFault) (h : Nat) :
    List SnapEvent × List SnapEvent × Option SnapFault :=
  if fault = Option.some (SnapFault.atVdsmdStop h) then
    ([], [], Option.some (SnapFault.atVdsmdStop h))
  else if fault = Option.some (SnapFault.atSupervdsmdStop h) then
    ([SnapEvent.vdsmdStop h], [SnapEvent.vdsmdStart h],
      Option.some (SnapFault.atSupervdsmdStop h))
  else
    ([SnapEvent.vdsmdStop h, SnapEvent.supervdsmdStop h],
      [SnapEvent.vdsmdStart h, SnapEvent.supervdsmdStart h], Option.none)

/-- The forward body of `create_snapshots`, run inside the rollback
context with an optional injected fault.  Returns the forward events,
the undo actions registered on the rollback stack in REGISTRATION order
(each `prependDefer` appends here; the stack itself is this list
reversed), and the outcome.

Modelled from the spec: `testenv.utils.RollbackContext` (§4.2 Scoped
Rollback Stack) and `testenv.utils.VectorThread` (§4.1 Parallel Job
Runner) are not under `src/`; the vector thread runs every `stop_host`
job to completion regardless of sibling failures and re-raises the first
failure on join, and its interleaving is linearised in host-list order.
On success with `restore=False` the code calls `rollback.clear()`, so
the registered-undo list is emptied. -/
def snapshotRun (hosts : List Nat) (name : String) (restore : Bool)
    (fault : Option SnapFault) :
    List SnapEvent × List SnapEvent × Except SnapFault Unit :=
  -- self._deactivate()
  if fault = Option.some SnapFault.atDeactivate then
    ([], [], Except.error SnapFault.atDeactivate)
  else
    -- rollback.prependDefer(self._activate)
    let regs1 := [SnapEvent.activateEnv]
    -- engine.service('ovirt-engine').stop()
    if fault = Option.some SnapFault.atEngineStop then
      ([SnapEvent.deactivateEnv], regs1, Except.error SnapFault.atEngineStop)
    else
      -- rollback.prependDefer(engine.get_api); rollback.prependDefer(....start)
      let regs2 := regs1 ++ [SnapEvent.getApi, SnapEvent.engineStart]
      let jobs := hosts.map (stopHostJob fault)
      let hostEvents := (jobs.map (fun j => j.1)).flatten
      let hostRegs := (jobs.map (fun j => j.2.1)).flatten
      let regs3 := regs2 ++ hostRegs
      let fwd := [SnapEvent.deactivateEnv, SnapEvent.engineStop] ++ hostEvents
      -- vt.join_all() re-raises the first job failure
      match (jobs.filterMap (fun j => j.2.2)).head? with
      | Option.some f => (fwd, regs3, Except.error f)
      | Option.none =>
        -- super(OvirtPrefix, self).create_snapshots(name)
        if fault = Option.some SnapFault.atCapture then
          (fwd, regs3, Except.error SnapFault.atCapture)
        else
          let fwd2 := fwd ++ [SnapEvent.capture name]
          -- if not restore: rollback.clear()
          if restore then (fwd2, regs3, Except.ok ())
          else (fwd2, [], Except.ok ())

/-- `OvirtPrefix.create_snapshots(name, restore)` with an injected
fault: run the forward body, then — leaving the `with RollbackContext()`
block, on the normal and on the raising path alike — execute every undo
still registered, in strict last-registered-first order (the reverse of
the registration order), before the outcome propagates. -/
def create_snapshots (hosts : List Nat) (name : String) (restore : Bool)
    (fault : Option SnapFault) : List SnapEvent × Except SnapFault Unit :=
  let r := snapshotRun hosts name restore fault
  (r.1 ++ r.2.1.reverse, r.2.2)

/-- Observable state of the environment during the snapshot
transaction. -/
structure SnapState where
  envActive : Bool
  engineUp : Bool
  vdsmdUp : Nat → Bool
  supervdsmdUp : Nat → Bool
  snapshots : List String

/-- Effect of one snapshot-transaction action on the environment
state. -/
def SnapState.applyEvent (s : SnapState) : SnapEvent → SnapState
  | SnapEvent.deactivateEnv => { s with envActive := false }
  | SnapEvent.activateEnv => { s with envActive := true }
  | SnapEvent.engineStop => { s with engineUp := false }
  | SnapEvent.engineStart => { s with engineUp := true }
  | SnapEvent.getApi => s
  | SnapEvent.vdsmdStop h =>
    { s with vdsmdUp := fun i => if i = h then false else s.vdsmdUp i }
  | SnapEvent.vdsmdStart h =>
    { s with vdsmdUp := fun i => if i = h then true else s.vdsmdUp i }
  | SnapEvent.supervdsmdStop h =>
    { s with supervdsmdUp := fun i => if i = h then false else s.supervdsmdUp i }
  | SnapEvent.supervdsmdStart h =>
    { s with supervdsmdUp := fun i => if i = h then true else s.supervdsmdUp i }
  | SnapEvent.capture n => { s with snapshots := s.snapshots ++ [n] }

/-- Run a trace of snapshot-transaction actions from a state. -/
def runTrace (s : SnapState) (tr : List SnapEvent) : SnapState :=
  tr.foldl SnapState.applyEvent s

/-- The fully running environment: everything active and up, no
snapshot taken yet. -/
def SnapState.running0 : SnapState :=
  { envActive := true, engineUp := true, vdsmdUp := fun _ => true,
    supervdsmdUp := fun _ => true, snapshots := [] }

/-- The forward events of the fault-free host-stopping phase: for each
host, stop `vdsmd` then stop `supervdsmd`. -/
def hostStopEvents (hosts : List Nat) : List SnapEvent :=
  (hosts.map (fun h => [SnapEvent.vdsmdStop h, SnapEvent.supervdsmdStop h])).flatten

/-- The undos registered by the fault-free host-stopping phase, in
registration order: for each host, restart `vdsmd` then restart
`supervdsmd`. -/
def hostStartUndos (hosts : List Nat) : List SnapEvent :=
  (hosts.map (fun h => [SnapEvent.vdsmdStart h, SnapEvent.supervdsmdStart h])).flatten

/-- A job scheduled by `OvirtPrefix.prepare_repo`, identified by the
partial application it builds: the synced repository, or one of the
three RPM-build helpers with the arguments bound in the partial.
`buildJsonrpcJava` stands for `_build_vdsm_jsonrpc_java_rpms`. -/
inductive RepoJob where
  | syncRepo (rpm_repo : Option String) (yum_config : Option String) (repos : List String)
  | buildVdsm (vdsm_dir : Option String) (output_dir : String) (dists : List String)
  | buildEngine (engine_dir : Option String) (output_dir : String) (dists : List String)
      (build_gwt : Bool)
  | buildJsonrpcJava (source_dir : Option String) (output_dir : String) (dists : List String)
deriving DecidableEq, Repr

/-- Keyword arguments of `OvirtPrefix.prepare_repo`. -/
structure PrepareRepoArgs where
  rpm_repo : Option String
  reposync_yum_config : Option String
  skip_sync : Bool
  vdsm_dir : Option String
  engine_dir : Option String
  engine_build_gwt : Bool
  vdsm_jsonrpc_java_dir : Option String
deriving DecidableEq, Repr

/-- The job-scheduling logic of `OvirtPrefix.prepare_repo`: the `jobs`
list it hands to the vector thread, as a function of its keyword
arguments, the distro lists detected from the environment, the repo
names parsed from the reposync config, and the prefix's
`paths.build_dir`.  Mirrors the four `jobs.append` sites in order; in
particular the `vdsm_jsonrpc_java_dir` branch appends a partial of
`_build_engine_rpms` with the same arguments as the `engine_dir`
branch. -/
def prepare_repo_jobs (args : PrepareRepoArgs) (engine_dists vdsm_dists repos : List String)
    (build_dir : String → String) : List RepoJob :=
  (if args.rpm_repo.isSome ∧ args.reposync_yum_config.isSome ∧ ¬args.skip_sync then
    [RepoJob.syncRepo args.rpm_repo args.reposync_yum_config repos]
  else []) ++
  (if args.vdsm_dir.isSome ∧ vdsm_dists ≠ [] then
    [RepoJob.buildVdsm args.vdsm_dir (build_dir "vdsm") vdsm_dists]
  else []) ++
  (if args.engine_dir.isSome ∧ engine_dists ≠ [] then
    [RepoJob.buildEngine args.engine_dir (build_dir "ovirt-engine") engine_dists
      args.engine_build_gwt]
  else []) ++
  (if args.vdsm_jsonrpc_java_dir.isSome ∧ engine_dists ≠ [] then
    [RepoJob.buildEngine args.engine_dir (build_dir "ovirt-engine") engine_dists
      args.engine_build_gwt]
  else [])

/-- A host entity for the revert model: name and whether its state
reports `up`. -/
structure HostEnt where
  name : String
  up : Bool
deriving DecidableEq, Repr

/-- One action of `OvirtPrefix.revert_snapshots` and of the
`OvirtPrefix._activate` it ends with. -/
inductive RevertEvent where
  | revertBase (name : String)
  | waitSsh (vm : String)
  | hostActivate (name : String)
  | sdActivate (name : String)
deriving DecidableEq, Repr

/-- The storage-domain activation requests issued by
`_activate_all_storage_domains`, data center by data center, masters
first then non-masters. -/
def activateAllSdEvents (env : List DataCenter) : List RevertEvent :=
  (env.map (fun dc =>
    (dc.sds.filter (fun sd => sd.master)).map (fun sd => RevertEvent.sdActivate sd.name) ++
    (dc.sds.filter (fun sd => !sd.master)).map (fun sd => RevertEvent.sdActivate sd.name))).flatten

/-- The action sequence of `OvirtPrefix._activate`: wait for SSH on
every VM, then activate all hosts, then activate all storage domains
(masters first within each data center). -/
def activateTrace (vms : List String) (hosts : List HostEnt) (env : List DataCenter) :
    List RevertEvent :=
  vms.map RevertEvent.waitSsh ++
  hosts.map (fun h => RevertEvent.hostActivate h.name) ++
  activateAllSdEvents env

/-- The state reached once `OvirtPrefix._activate` has driven every host
to `up` and every storage domain group to `active` (convergence of the
bounded polls assumed, as the assertions in `_activate_all_hosts` and
`_activate_storage_domains` enforce): hosts all up, and each data center
transformed by the master group then the non-master group. -/
def activateFinalState (hosts : List HostEnt) (env : List DataCenter) :
    List HostEnt × List DataCenter :=
  (hosts.map (fun h => { h with up := true }),
   env.map (fun dc => dcSetGroup (fun sd => !sd.master) true (dcSetGroup (fun sd => sd.master) true dc)))

/-- `OvirtPrefix.revert_snapshots(name)`: revert through the base class
(modelled from the spec as an opaque step leaving the environment in the
arbitrary post-revert state `hosts`/`env`, since the base `testenv`
prefix is not under `src/`), then run `self._activate()`.  Returns the
action trace and the final environment state. -/
def revert_snapshots (name : String) (vms : List String) (hosts : List HostEnt)
    (env : List DataCenter) : List RevertEvent × List HostEnt × List DataCenter :=
  (RevertEvent.revertBase name :: activateTrace vms hosts env,
   activateFinalState hosts env)

/-! Helper lemmas about the storage-domain request and poll loops. -/

theorem sdActivateRequests_ok (api : SdApi) :
    ∀ sds : List StorageDomain, (∀ sd ∈ sds, api.requestFails sd.name = false) →
      sdActivateRequests api sds =
        (sds.map (fun sd => ApiEvent.sdActivate sd.name), Except.ok ()) := by
  intro sds
  induction sds with
  | nil => intro _; rfl
  | cons sd rest ih =>
    intro h
    have hsd : api.requestFails sd.name = false := h sd (List.mem_cons_self sd rest)
    have hrest := ih (fun x hx => h x (List.mem_cons_of_mem sd hx))
    simp [sdActivateRequests, hsd, hrest]

theorem sdDeactivateRequests_ok (api : SdApi) :
    ∀ sds : List StorageDomain, (∀ sd ∈ sds, api.requestFails sd.name = false) →
      sdDeactivateRequests api sds =
        (sds.map (fun sd => ApiEvent.sdDeactivate sd.name), Except.ok ()) := by
  intro sds
  induction sds with
  | nil => intro _; rfl
  | cons sd rest ih =>
    intro h
    have hsd : api.requestFails sd.name = false := h sd (List.mem_cons_self sd rest)
    have hrest := ih (fun x hx => h x (List.mem_cons_of_mem sd hx))
    simp [sdDeactivateRequests, hsd, hrest]

theorem sdActivateRequests_fail (api : SdApi) (bad : StorageDomain) (rest : List StorageDomain) :
    ∀ pre : List StorageDomain, (∀ sd ∈ pre, api.requestFails sd.name = false) →
      api.requestFails bad.name = true →
      sdActivateRequests api (pre ++ bad :: rest) =
        ((pre ++ [bad]).map (fun sd => ApiEvent.sdActivate sd.name),
          Except.error ApiError.requestError) := by
  intro pre
  induction pre with
  | nil =>
    intro _ hbad
    simp [sdActivateRequests, hbad]
  | cons sd pre ih =>
    intro h hbad
    have hsd : api.requestFails sd.name = false := h sd (List.mem_cons_self sd pre)
    have hrest := ih (fun x hx => h x (List.mem_cons_of_mem sd hx)) hbad
    simp [sdActivateRequests, hsd, hrest]

theorem sdDeactivateRequests_fail (api : SdApi) (bad : StorageDomain) (rest : List StorageDomain) :
    ∀ pre : List StorageDomain, (∀ sd ∈ pre, api.requestFails sd.name = false) →
      api.requestFails bad.name = true →
      sdDeactivateRequests api (pre ++ bad :: rest) =
        ((pre ++ [bad]).map (fun sd => ApiEvent.sdDeactivate sd.name),
          Except.error ApiError.requestError) := by
  intro pre
  induction pre with
  | nil =>
    intro _ hbad
    simp [sdDeactivateRequests, hbad]
  | cons sd pre ih =>
    intro h hbad
    have hsd : api.requestFails sd.name = false := h sd (List.mem_cons_self sd pre)
    have hrest := ih (fun x hx => h x (List.mem_cons_of_mem sd hx)) hbad
    simp [sdDeactivateRequests, hsd, hrest]

theorem sdStatePolls_ok_iff (timeout : Nat) (stateAt : String → Option Nat) (target : String) :
    ∀ sds : List StorageDomain,
      ((sdStatePolls timeout stateAt target sds).2 = Except.ok () ↔
        ∀ sd ∈ sds, assert_true_within timeout (stateAt sd.name) = true) := by
  intro sds
  induction sds with
  | nil => simp [sdStatePolls]
  | cons sd rest ih =>
    by_cases hsd : assert_true_within timeout (stateAt sd.name) = true
    · simp [sdStatePolls, hsd, ih]
    · simp [sdStatePolls, hsd]

theorem sdStatePolls_result (timeout : Nat) (stateAt : String → Option Nat) (target : String) :
    ∀ sds : List StorageDomain,
      (sdStatePolls timeout stateAt target sds).2 = Except.ok () ∨
      (sdStatePolls timeout stateAt target sds).2 = Except.error ApiError.convergenceTimeout := by
  intro sds
  induction sds with
  | nil => simp [sdStatePolls]
  | cons sd rest ih =>
    by_cases hsd : assert_true_within timeout (stateAt sd.name) = true
    · simpa [sdStatePolls, hsd] using ih
    · simp [sdStatePolls, hsd]

theorem sdStatePolls_events (timeout : Nat) (stateAt : String → Option Nat) (target : String) :
    ∀ sds : List StorageDomain, ∀ e ∈ (sdStatePolls timeout stateAt target sds).1,
      ∃ d n, e = ApiEvent.sdPoll d n target := by
  intro sds
  induction sds with
  | nil => simp [sdStatePolls]
  | cons sd rest ih =>
    intro e he
    by_cases hsd : assert_true_within timeout (stateAt sd.name) = true
    · simp only [sdStatePolls, hsd, if_true, List.mem_cons] at he
      rcases he with rfl | he
      · exact ⟨sd.dataCenter, sd.name, rfl⟩
      · exact ih e he
    · simp only [sdStatePolls, hsd, if_false, Bool.false_eq_true, List.mem_singleton] at he
      exact ⟨sd.dataCenter, sd.name, by simp [he]⟩

/-- Claim C5: for every caller-supplied group of storage domains whose
activate requests are accepted, `_activate_storage_domains` issues an
activate request to every domain in the group before polling any of
them (the trace is the full request list followed only by poll events),
then polls each domain's owning data center for `active` under the long
bound, succeeding iff every domain converges within the bound and
otherwise failing with a convergence-timeout error. -/
theorem activate_storage_domains_requests_then_polls (longT : Nat) (api : SdApi)
    (sds : List StorageDomain) (hreq : ∀ sd ∈ sds, api.requestFails sd.name = false) :
    (_activate_storage_domains longT api sds).1 =
        sds.map (fun sd => ApiEvent.sdActivate sd.name) ++
          (sdStatePolls longT api.activeAt "active" sds).1 ∧
    (∀ e ∈ (sdStatePolls longT api.activeAt "active" sds).1,
        ∃ d n, e = ApiEvent.sdPoll d n "active") ∧
    ((_activate_storage_domains longT api sds).2 = Except.ok () ↔
        ∀ sd ∈ sds, assert_true_within longT (api.activeAt sd.name) = true) ∧
    ((_activate_storage_domains longT api sds).2 ≠ Except.ok () →
        (_activate_storage_domains longT api sds).2 = Except.error ApiError.convergenceTimeout) := by
  have hr := sdActivateRequests_ok api sds hreq
  have hact : _activate_storage_domains longT api sds =
      (sds.map (fun sd => ApiEvent.sdActivate sd.name) ++
        (sdStatePolls longT api.activeAt "active" sds).1,
        (sdStatePolls longT api.activeAt "active" sds).2) := by
    simp [_activate_storage_domains, hr]
  refine ⟨by simp [hact], sdStatePolls_events longT api.activeAt "active" sds, ?_, ?_⟩
  · simpa [hact] using sdStatePolls_ok_iff longT api.activeAt "active" sds
  · intro hne
    rcases sdStatePolls_result longT api.activeAt "active" sds with hok | herr
    · exact absurd (by simp [hact, hok]) hne
    · simp [hact, herr]

/-- Witness for C5 at a concrete two-domain group: requests precede
polls and the run succeeds when both domains converge in time. -/
theorem activate_storage_domains_requests_then_polls_witness :
    (_activate_storage_domains 3
        { requestFails := fun _ => false, activeAt := fun _ => Option.some 1,
          maintenanceAt := fun _ => Option.none }
        [{ name := "master_sd", dataCenter := 0, master := true },
         { name := "sd2", dataCenter := 0, master := false }]).1 =
      [ApiEvent.sdActivate "master_sd", ApiEvent.sdActivate "sd2",
       ApiEvent.sdPoll 0 "master_sd" "active", ApiEvent.sdPoll 0 "sd2" "active"] ∧
    (_activate_storage_domains 3
        { requestFails := fun _ => false, activeAt := fun _ => Option.some 1,
          maintenanceAt := fun _ => Option.none }
        [{ name := "master_sd", dataCenter := 0, master := true },
         { name := "sd2", dataCenter := 0, master := false }]).2 = Except.ok () := by
  have h := activate_storage_domains_requests_then_polls 3
    { requestFails := fun _ => false, activeAt := fun _ => Option.some 1,
      maintenanceAt := fun _ => Option.none }
    [{ name := "master_sd", dataCenter := 0, master := true },
     { name := "sd2", dataCenter := 0, master := false }]
    (by intro sd _; rfl)
  refine ⟨?_, ?_⟩
  · rw [h.1]
    rfl
  · exact h.2.2.1.mpr (by intro sd _; rfl)

/-! Helper lemmas about the host poll loop. -/

theorem hostStatePolls_ok_iff (shortT : Nat) (stateAt : HostModel → Option Nat) (target : String) :
    ∀ hosts : List HostModel,
      ((hostStatePolls shortT stateAt target hosts).2 = Except.ok () ↔
        ∀ h ∈ hosts, assert_true_within shortT (stateAt h) = true) := by
  intro hosts
  induction hosts with
  | nil => simp [hostStatePolls]
  | cons h rest ih =>
    by_cases hh : assert_true_within shortT (stateAt h) = true
    · simp [hostStatePolls, hh, ih]
    · simp [hostStatePolls, hh]

theorem hostStatePolls_result (shortT : Nat) (stateAt : HostModel → Option Nat) (target : String) :
    ∀ hosts : List HostModel,
      (hostStatePolls shortT stateAt target hosts).2 = Except.ok () ∨
      (hostStatePolls shortT stateAt target hosts).2 = Except.error ApiError.convergenceTimeout := by
  intro hosts
  induction hosts with
  | nil => simp [hostStatePolls]
  | cons h rest ih =>
    by_cases hh : assert_true_within shortT (stateAt h) = true
    · simpa [hostStatePolls, hh] using ih
    · simp [hostStatePolls, hh]

theorem hostStatePolls_all_ok (shortT : Nat) (stateAt : HostModel → Option Nat) (target : String) :
    ∀ hosts : List HostModel, (∀ h ∈ hosts, assert_true_within shortT (stateAt h) = true) →
      (hostStatePolls shortT stateAt target hosts).1 =
        hosts.map (fun h => ApiEvent.hostPoll h.name target) := by
  intro hosts
  induction hosts with
  | nil => intro _; rfl
  | cons h rest ih =>
    intro hall
    have hh := hall h (List.mem_cons_self h rest)
    have hrest := ih (fun x hx => hall x (List.mem_cons_of_mem h hx))
    simp [hostStatePolls, hh, hrest]

/-- Claim C7: `_activate_all_hosts` issues exactly one activate request
to every host — in host-list order, recording rejected requests as well
but swallowing the rejection — then polls every host (including those
whose request was rejected) for `up` within the short bound; it never
surfaces a `RequestError`, succeeds iff every host converges in time,
and any failure is a convergence timeout. -/
theorem activate_all_hosts_single_request_then_poll (shortT : Nat) (hosts : List HostModel) :
    (_activate_all_hosts shortT hosts).1 =
        hosts.map (fun h => ApiEvent.hostActivate h.name (!h.activateRejected)) ++
          (hostStatePolls shortT (fun h => h.upAt) "up" hosts).1 ∧
    ((∀ h ∈ hosts, assert_true_within shortT h.upAt = true) →
        (hostStatePolls shortT (fun h => h.upAt) "up" hosts).1 =
          hosts.map (fun h => ApiEvent.hostPoll h.name "up")) ∧
    ((_activate_all_hosts shortT hosts).2 = Except.ok () ↔
        ∀ h ∈ hosts, assert_true_within shortT h.upAt = true) ∧
    (_activate_all_hosts shortT hosts).2 ≠ Except.error ApiError.requestError ∧
    ((_activate_all_hosts shortT hosts).2 ≠ Except.ok () →
        (_activate_all_hosts shortT hosts).2 = Except.error ApiError.convergenceTimeout) := by
  refine ⟨rfl, hostStatePolls_all_ok shortT (fun h => h.upAt) "up" hosts, ?_, ?_, ?_⟩
  · simpa [_activate_all_hosts] using hostStatePolls_ok_iff shortT (fun h => h.upAt) "up" hosts
  · rcases hostStatePolls_result shortT (fun h => h.upAt) "up" hosts with hok | herr
    · simp [_activate_all_hosts, hok]
    · simp [_activate_all_hosts, herr]
  · intro hne
    rcases hostStatePolls_result shortT (fun h => h.upAt) "up" hosts with hok | herr
    · exact absurd (by simp [_activate_all_hosts, hok]) hne
    · simp [_activate_all_hosts, herr]

/-- Witness for C7 at two concrete hosts, one of whose activate request
is rejected: both get exactly one request, both are polled, and the run
still succeeds. -/
theorem activate_all_hosts_single_request_then_poll_witness :
    (_activate_all_hosts 2
        [{ name := "h0", deactivateRejects := 0, activateRejected := true,
           upAt := Option.some 1, maintenanceAt := Option.none },
         { name := "h1", deactivateRejects := 0, activateRejected := false,
           upAt := Option.some 2, maintenanceAt := Option.none }]).1 =
      [ApiEvent.hostActivate "h0" false, ApiEvent.hostActivate "h1" true,
       ApiEvent.hostPoll "h0" "up", ApiEvent.hostPoll "h1" "up"] ∧
    (_activate_all_hosts 2
        [{ name := "h0", deactivateRejects := 0, activateRejected := true,
           upAt := Option.some 1, maintenanceAt := Option.none },
         { name := "h1", deactivateRejects := 0, activateRejected := false,
           upAt := Option.some 2, maintenanceAt := Option.none }]).2 = Except.ok () := by
  have h := activate_all_hosts_single_request_then_poll 2
    [{ name := "h0", deactivateRejects := 0, activateRejected := true,
       upAt := Option.some 1, maintenanceAt := Option.none },
     { name := "h1", deactivateRejects := 0, activateRejected := false,
       upAt := Option.some 2, maintenanceAt := Option.none }]
  constructor
  · rw [h.1, h.2.1 (by decide)]
    rfl
  · exact h.2.2.1.mpr (by decide)

/-- Claim C6: transient request rejections are swallowed only in the two
host operations — `_activate_all_hosts` and `_deactivate_all_hosts`
never surface a `RequestError` — while for storage domains any failing
activate or deactivate request propagates immediately (the trace stops
at the failing request, each domain having received at most one request
and none having been polled), and a convergence timeout is always
surfaced as a hard failure. -/
theorem request_error_swallowing_policy :
    (∀ (longT : Nat) (api : SdApi) (pre : List StorageDomain) (bad : StorageDomain)
        (rest : List StorageDomain), (∀ sd ∈ pre, api.requestFails sd.name = false) →
        api.requestFails bad.name = true →
        _activate_storage_domains longT api (pre ++ bad :: rest) =
          ((pre ++ [bad]).map (fun sd => ApiEvent.sdActivate sd.name),
            Except.error ApiError.requestError)) ∧
    (∀ (longT : Nat) (api : SdApi) (pre : List StorageDomain) (bad : StorageDomain)
        (rest : List StorageDomain), (∀ sd ∈ pre, api.requestFails sd.name = false) →
        api.requestFails bad.name = true →
        _deactivate_storage_domains longT api (pre ++ bad :: rest) =
          ((pre ++ [bad]).map (fun sd => ApiEvent.sdDeactivate sd.name),
            Except.error ApiError.requestError)) ∧
    (∀ (shortT : Nat) (hosts : List HostModel),
        (_activate_all_hosts shortT hosts).2 ≠ Except.error ApiError.requestError) ∧
    (∀ (shortT : Nat) (hosts : List HostModel),
        (_deactivate_all_hosts shortT hosts).2 ≠ Except.error ApiError.requestError) ∧
    (∀ (longT : Nat) (api : SdApi) (sds : List StorageDomain),
        (∀ sd ∈ sds, api.requestFails sd.name = false) →
        (∃ sd ∈ sds, assert_true_within longT (api.activeAt sd.name) = false) →
        (_activate_storage_domains longT api sds).2 = Except.error ApiError.convergenceTimeout) ∧
    (∀ (shortT : Nat) (hosts : List HostModel),
        (∃ h ∈ hosts, assert_true_within shortT h.upAt = false) →
        (_activate_all_hosts shortT hosts).2 = Except.error ApiError.convergenceTimeout) := by
  refine ⟨?_, ?_, ?_, ?_, ?_, ?_⟩
  · intro longT api pre bad rest hpre hbad
    have hr := sdActivateRequests_fail api bad rest pre hpre hbad
    simp [_activate_storage_domains, hr]
  · intro longT api pre bad rest hpre hbad
    have hr := sdDeactivateRequests_fail api bad rest pre hpre hbad
    simp [_deactivate_storage_domains, hr]
  · intro shortT hosts
    rcases hostStatePolls_result shortT (fun h => h.upAt) "up" hosts with hok | herr
    · simp [_activate_all_hosts, hok]
    · simp [_activate_all_hosts, herr]
  · intro shortT hosts
    rcases hostStatePolls_result shortT (fun h => h.maintenanceAt) "maintenance" hosts with
      hok | herr
    · simp [_deactivate_all_hosts, hok]
    · simp [_deactivate_all_hosts, herr]
  · intro longT api sds hreq hex
    have hr := sdActivateRequests_ok api sds hreq
    have hne : (sdStatePolls longT api.activeAt "active" sds).2 ≠ Except.ok () := by
      intro hok
      rcases hex with ⟨sd, hsd, hfalse⟩
      have := (sdStatePolls_ok_iff longT api.activeAt "active" sds).mp hok sd hsd
      simp [this] at hfalse
    rcases sdStatePolls_result longT api.activeAt "active" sds with hok | herr
    · exact absurd hok hne
    · simp [_activate_storage_domains, hr, herr]
  · intro shortT hosts hex
    have hne : (hostStatePolls shortT (fun h => h.upAt) "up" hosts).2 ≠ Except.ok () := by
      intro hok
      rcases hex with ⟨h, hh, hfalse⟩
      have := (hostStatePolls_ok_iff shortT (fun h => h.upAt) "up" hosts).mp hok h hh
      simp [this] at hfalse
    rcases hostStatePolls_result shortT (fun h => h.upAt) "up" hosts with hok | herr
    · exact absurd hok hne
    · simp [_activate_all_hosts, herr]

/-- Witness for C6 at concrete inputs: a storage-domain group whose
second domain's deactivate request is rejected propagates the rejection
immediately after two requests; host activation over a rejected host
does not surface the rejection; and a non-converging domain surfaces a
convergence timeout. -/
theorem request_error_swallowing_policy_witness :
    _deactivate_storage_domains 5
        { requestFails := fun n => n = "sd2", activeAt := fun _ => Option.none,
          maintenanceAt := fun _ => Option.some 0 }
        [{ name := "sd1", dataCenter := 0, master := false },
         { name := "sd2", dataCenter := 0, master := false },
         { name := "sd3", dataCenter := 0, master := false }] =
      ([ApiEvent.sdDeactivate "sd1", ApiEvent.sdDeactivate "sd2"],
        Except.error ApiError.requestError) ∧
    (_activate_all_hosts 2
        [{ name := "h0", deactivateRejects := 0, activateRejected := true,
           upAt := Option.some 0, maintenanceAt := Option.none }]).2 ≠
      Except.error ApiError.requestError ∧
    (_activate_storage_domains 5
        { requestFails := fun _ => false, activeAt := fun n => if n = "sd9" then Option.none else Option.some 0,
          maintenanceAt := fun _ => Option.none }
        [{ name := "sd8", dataCenter := 1, master := true },
         { name := "sd9", dataCenter := 1, master := false }]).2 =
      Except.error ApiError.convergenceTimeout := by
  refine ⟨?_, ?_, ?_⟩
  · have h := request_error_swallowing_policy.2.1 5
      { requestFails := fun n => n = "sd2", activeAt := fun _ => Option.none,
        maintenanceAt := fun _ => Option.some 0 }
      [{ name := "sd1", dataCenter := 0, master := false }]
      { name := "sd2", dataCenter := 0, master := false }
      [{ name := "sd3", dataCenter := 0, master := false }]
      (by decide) (by decide)
    simpa using h
  · exact request_error_swallowing_policy.2.2.1 2
      [{ name := "h0", deactivateRejects := 0, activateRejected := true,
         upAt := Option.some 0, maintenanceAt := Option.none }]
  · exact request_error_swallowing_policy.2.2.2.2.1 5
      { requestFails := fun _ => false,
        activeAt := fun n => if n = "sd9" then Option.none else Option.some 0,
        maintenanceAt := fun _ => Option.none }
      [{ name := "sd8", dataCenter := 1, master := true },
       { name := "sd9", dataCenter := 1, master := false }]
      (by intro sd _; rfl)
      ⟨{ name := "sd9", dataCenter := 1, master := false }, by decide, by decide⟩

/-! Helper lemmas about the deactivation retry loop. -/

theorem deactLoopR_nil : deactLoopR [] = [] := by
  simp [deactLoopR]

theorem deactLoopR_cons (h : HostModel) (rest : List HostModel) :
    deactLoopR (h :: rest) =
      if h.deactivateRejects = 0 then
        (h.name, true) :: deactLoopR rest
      else
        (h.name, false) ::
          deactLoopR (rest ++ [{ h with deactivateRejects := h.deactivateRejects - 1 }]) := by
  rw [deactLoopR]

theorem deactLoopR_rec (P : List HostModel → Prop) (hnil : P [])
    (haccept : ∀ h rest, h.deactivateRejects = 0 → P rest → P (h :: rest))
    (hreject : ∀ h rest, h.deactivateRejects ≠ 0 →
      P (rest ++ [{ h with deactivateRejects := h.deactivateRejects - 1 }]) → P (h :: rest)) :
    ∀ l, P l := by
  have key : ∀ n l, hostsMeasure l ≤ n → P l := by
    intro n
    induction n with
    | zero =>
      intro l hl
      cases l with
      | nil => exact hnil
      | cons h rest =>
        simp [hostsMeasure] at hl
    | succ n ih =>
      intro l hl
      cases l with
      | nil => exact hnil
      | cons h rest =>
        by_cases h0 : h.deactivateRejects = 0
        · refine haccept h rest h0 (ih rest ?_)
          simp [hostsMeasure] at hl ⊢
          omega
        · refine hreject h rest h0 (ih _ ?_)
          simp only [hostsMeasure, List.map_append, List.map_cons, List.map_nil,
            List.sum_append, List.sum_cons, List.sum_nil, List.length_append,
            List.length_cons, List.length_nil] at hl ⊢
          omega
  intro l
  exact key (hostsMeasure l) l (Nat.le_refl _)

theorem deactLoopR_length : ∀ l : List HostModel, (deactLoopR l).length = hostsMeasure l := by
  refine deactLoopR_rec _ (by simp [deactLoopR_nil, hostsMeasure]) ?_ ?_
  · intro h rest h0 ih
    simp [deactLoopR_cons, h0, ih, hostsMeasure]
    omega
  · intro h rest h0 ih
    rw [deactLoopR_cons]
    simp only [h0, if_false, List.length_cons, ih]
    simp only [hostsMeasure, List.map_append, List.map_cons, List.map_nil, List.sum_append,
      List.sum_cons, List.sum_nil, List.length_append, List.length_cons, List.length_nil]
    omega

theorem deactLoopR_accepted_perm :
    ∀ l : List HostModel,
      (((deactLoopR l).filter (fun a => a.2)).map Prod.fst).Perm
        (l.map (fun h => h.name)) := by
  refine deactLoopR_rec _ (by simp [deactLoopR_nil]) ?_ ?_
  · intro h rest h0 ih
    simpa [deactLoopR_cons, h0] using ih.cons h.name
  · intro h rest h0 ih
    rw [deactLoopR_cons]
    simp only [h0, if_false, List.filter_cons, List.map_cons]
    simp only [List.map_append, List.map_cons, List.map_nil] at ih ⊢
    exact ih.trans (List.perm_append_singleton h.name (rest.map (fun x => x.name)))

theorem deactLoopR_attempts_mem :
    ∀ l : List HostModel, ∀ p ∈ deactLoopR l, p.1 ∈ l.map (fun h => h.name) := by
  refine deactLoopR_rec _ (by simp [deactLoopR_nil]) ?_ ?_
  · intro h rest h0 ih p hp
    rw [deactLoopR_cons] at hp
    simp only [h0, if_true, List.mem_cons] at hp
    rcases hp with rfl | hp
    · simp
    · simpa using Or.inr (by simpa using ih p hp)
  · intro h rest h0 ih p hp
    rw [deactLoopR_cons] at hp
    simp only [h0, if_false, List.mem_cons] at hp
    rcases hp with rfl | hp
    · simp
    · have := ih p hp
      simp only [List.map_append, List.map_cons, List.map_nil, List.mem_append,
        List.mem_singleton] at this
      simp only [List.map_cons, List.mem_cons]
      tauto

theorem deactLoopR_no_attempt_after_accept :
    ∀ l : List HostModel, (l.map (fun h => h.name)).Nodup →
      ∀ t₁ t₂ : List (String × Bool), ∀ n : String,
        deactLoopR l = t₁ ++ (n, true) :: t₂ → n ∉ t₂.map Prod.fst := by
  refine deactLoopR_rec
    (fun l => (l.map (fun h => h.name)).Nodup →
      ∀ t₁ t₂ : List (String × Bool), ∀ n : String,
        deactLoopR l = t₁ ++ (n, true) :: t₂ → n ∉ t₂.map Prod.fst) ?_ ?_ ?_
  · intro _ t₁ t₂ n heq
    rw [deactLoopR_nil] at heq
    exact absurd heq (by simp)
  · intro h rest h0 ih hnd t₁ t₂ n heq
    rw [deactLoopR_cons] at heq
    simp only [h0, if_true] at heq
    cases t₁ with
    | nil =>
      simp only [List.nil_append, List.cons.injEq, Prod.mk.injEq] at heq
      rcases heq with ⟨⟨rfl, _⟩, rfl⟩
      intro hmem
      rcases List.mem_map.mp hmem with ⟨p, hp, hp1⟩
      have := deactLoopR_attempts_mem rest p hp
      rw [hp1] at this
      exact (List.nodup_cons.mp hnd).1 this
    | cons x t₁ =>
      simp only [List.cons_append, List.cons.injEq] at heq
      exact ih (List.nodup_cons.mp hnd).2 t₁ t₂ n heq.2
  · intro h rest h0 ih hnd t₁ t₂ n heq
    rw [deactLoopR_cons] at heq
    simp only [h0, if_false] at heq
    cases t₁ with
    | nil =>
      simp only [List.nil_append, List.cons.injEq, Prod.mk.injEq] at heq
      exact absurd heq.1.2 (by simp)
    | cons x t₁ =>
      simp only [List.cons_append, List.cons.injEq] at heq
      refine ih ?_ t₁ t₂ n heq.2
      simp only [List.map_append, List.map_cons, List.map_nil]
      have : (h.name :: rest.map (fun x => x.name)).Nodup := by
        simpa using hnd
      exact ((List.perm_append_singleton h.name
        (rest.map (fun x => x.name))).symm.nodup_iff).mp this

theorem deactLoopR_take :
    ∀ l : List HostModel,
      ((deactLoopR l).map Prod.fst).take l.length = l.map (fun h => h.name) := by
  refine deactLoopR_rec _ (by simp [deactLoopR_nil]) ?_ ?_
  · intro h rest h0 ih
    simp [deactLoopR_cons, h0, ih]
  · intro h rest h0 ih
    rw [deactLoopR_cons]
    simp only [h0, if_false, List.map_cons, List.length_cons, List.take_succ_cons,
      List.cons.injEq, true_and]
    have hlen : (rest ++ [{ h with deactivateRejects := h.deactivateRejects - 1 }]).length =
        rest.length + 1 := by simp
    rw [hlen] at ih
    have h1 : ((deactLoopR (rest ++ [{ h with deactivateRejects := h.deactivateRejects - 1 }])).map
        Prod.fst).take rest.length =
        (((deactLoopR (rest ++ [{ h with deactivateRejects := h.deactivateRejects - 1 }])).map
          Prod.fst).take (rest.length + 1)).take rest.length := by
      rw [List.take_take]
      congr 1
      omega
    rw [h1, ih]
    simp only [List.map_append, List.map_cons, List.map_nil]
    have : (rest.map (fun x => x.name)).length = rest.length := by simp
    rw [← this, List.take_left]

/-- Claim C3: for hosts whose deactivation is rejected only finitely
often, the retry loop of `_deactivate_all_hosts` terminates — issuing
exactly one attempt per pending rejection plus one accepted attempt per
host — with every host's deactivation accepted (the accepted attempts
are a permutation of the host list); all acceptance attempts precede the
maintenance polls in the trace; and when every host then converges to
`maintenance` within the short bound the operation succeeds without
caller intervention, whatever the rejection counts were. -/
theorem deactivate_all_hosts_converges (shortT : Nat) (hosts : List HostModel) :
    (deactLoopR hosts.reverse).length = hostsMeasure hosts.reverse ∧
    ((((deactLoopR hosts.reverse).filter (fun a => a.2)).map Prod.fst).Perm
      (hosts.map (fun h => h.name))) ∧
    (_deactivate_all_hosts shortT hosts).1 =
      (deactLoopR hosts.reverse).map (fun a => ApiEvent.hostDeactivate a.1 a.2) ++
        (hostStatePolls shortT (fun h => h.maintenanceAt) "maintenance" hosts).1 ∧
    ((∀ h ∈ hosts, assert_true_within shortT h.maintenanceAt = true) →
      (_deactivate_all_hosts shortT hosts).2 = Except.ok ()) := by
  refine ⟨deactLoopR_length hosts.reverse, ?_, rfl, ?_⟩
  · refine (deactLoopR_accepted_perm hosts.reverse).trans ?_
    rw [List.map_reverse]
    exact List.reverse_perm _
  · intro hall
    have := (hostStatePolls_ok_iff shortT (fun h => h.maintenanceAt) "maintenance" hosts).mpr hall
    simpa [_deactivate_all_hosts] using this

/-- Witness for C3 at the spec's scenario: a host whose first
deactivation attempt is rejected and second accepted, next to a host
accepted immediately; every host ends accepted and the run converges. -/
theorem deactivate_all_hosts_converges_witness :
    (deactLoopR
        [{ name := "h0", deactivateRejects := 1, activateRejected := false,
           upAt := Option.none, maintenanceAt := Option.some 1 },
         { name := "h1", deactivateRejects := 0, activateRejected := false,
           upAt := Option.none, maintenanceAt := Option.some 0 }].reverse).length =
      hostsMeasure
        [{ name := "h0", deactivateRejects := 1, activateRejected := false,
           upAt := Option.none, maintenanceAt := Option.some 1 },
         { name := "h1", deactivateRejects := 0, activateRejected := false,
           upAt := Option.none, maintenanceAt := Option.some 0 }].reverse ∧
    ((((deactLoopR
        [{ name := "h0", deactivateRejects := 1, activateRejected := false,
           upAt := Option.none, maintenanceAt := Option.some 1 },
         { name := "h1", deactivateRejects := 0, activateRejected := false,
           upAt := Option.none, maintenanceAt := Option.some 0 }].reverse).filter
          (fun a => a.2)).map Prod.fst).Perm ["h0", "h1"]) ∧
    (_deactivate_all_hosts 3
        [{ name := "h0", deactivateRejects := 1, activateRejected := false,
           upAt := Option.none, maintenanceAt := Option.some 1 },
         { name := "h1", deactivateRejects := 0, activateRejected := false,
           upAt := Option.none, maintenanceAt := Option.some 0 }]).2 = Except.ok () := by
  have h := deactivate_all_hosts_converges 3
    [{ name := "h0", deactivateRejects := 1, activateRejected := false,
       upAt := Option.none, maintenanceAt := Option.some 1 },
     { name := "h1", deactivateRejects := 0, activateRejected := false,
       upAt := Option.none, maintenanceAt := Option.some 0 }]
  exact ⟨h.1, h.2.1, h.2.2.2 (by decide)⟩

/-- Claim C9: in the deactivation request loop, a host leaves the retry
queue exactly when its request is accepted — the accepted attempts are
exactly the queued hosts, one accepted request each; once accepted, a
host is never attempted again; and a rejected host is re-inserted at the
opposite end of the queue, so every other pending host is attempted
before its retry.  (`deactLoopR` takes the queue in popping order: its
head is the host `hosts.pop()` removes, and `hosts.insert(0, host)`
appends at its back.) -/
theorem deactivate_request_queue_discipline :
    (∀ l : List HostModel,
      ((((deactLoopR l).filter (fun a => a.2)).map Prod.fst).Perm
        (l.map (fun h => h.name)))) ∧
    (∀ l : List HostModel, (l.map (fun h => h.name)).Nodup →
      ∀ t₁ t₂ : List (String × Bool), ∀ n : String,
        deactLoopR l = t₁ ++ (n, true) :: t₂ → n ∉ t₂.map Prod.fst) ∧
    (∀ (h : HostModel) (rest : List HostModel), h.deactivateRejects ≠ 0 →
      ((deactLoopR (h :: rest)).map Prod.fst).take (rest.length + 2) =
        h.name :: (rest.map (fun x => x.name) ++ [h.name])) := by
  refine ⟨deactLoopR_accepted_perm, deactLoopR_no_attempt_after_accept, ?_⟩
  intro h rest h0
  rw [deactLoopR_cons]
  simp only [h0, if_false, List.map_cons, List.take_succ_cons, List.cons.injEq, true_and]
  have := deactLoopR_take (rest ++ [{ h with deactivateRejects := h.deactivateRejects - 1 }])
  simp only [List.length_append, List.length_cons, List.length_nil, List.map_append,
    List.map_cons, List.map_nil] at this
  simpa using this

/-- Witness for C9: on a two-host queue the accepted attempts are a
permutation of the queue; after the accepted attempt of `a` the host `a`
is never attempted again; and after `h0`'s rejection the other pending
host `h1` is attempted before `h0`'s retry. -/
theorem deactivate_request_queue_discipline_witness :
    ((((deactLoopR
        [{ name := "a", deactivateRejects := 0, activateRejected := false,
           upAt := Option.none, maintenanceAt := Option.none },
         { name := "b", deactivateRejects := 0, activateRejected := false,
           upAt := Option.none, maintenanceAt := Option.none }]).filter
            (fun a => a.2)).map Prod.fst).Perm ["a", "b"]) ∧
    ("a" : String) ∉ ([("b", true)] : List (String × Bool)).map Prod.fst ∧
    ((deactLoopR
        [{ name := "h0", deactivateRejects := 1, activateRejected := false,
           upAt := Option.none, maintenanceAt := Option.none },
         { name := "h1", deactivateRejects := 0, activateRejected := false,
           upAt := Option.none, maintenanceAt := Option.none }]).map Prod.fst).take 3 =
      ["h0", "h1", "h0"] := by
  refine ⟨deactivate_request_queue_discipline.1 _, ?_, ?_⟩
  · refine deactivate_request_queue_discipline.2.1
      [{ name := "a", deactivateRejects := 0, activateRejected := false,
         upAt := Option.none, maintenanceAt := Option.none },
       { name := "b", deactivateRejects := 0, activateRejected := false,
         upAt := Option.none, maintenanceAt := Option.none }] (by decide) [] [("b", true)] "a" ?_
    simp [deactLoopR_cons, deactLoopR_nil]
  · have h := deactivate_request_queue_discipline.2.2
      { name := "h0", deactivateRejects := 1, activateRejected := false,
        upAt := Option.none, maintenanceAt := Option.none }
      [{ name := "h1", deactivateRejects := 0, activateRejected := false,
         upAt := Option.none, maintenanceAt := Option.none }] (by decide)
    simpa using h

/-! Helper lemmas for the master-domain invariant. -/

theorem dcMasterInv_of_all (dc : DataCenter)
    (h : dc.sds.all (fun sd => !sd.master || sd.active) = true) : dcMasterInv dc = true := by
  unfold dcMasterInv
  split <;> simp [h]

theorem dcMasterInv_of_any_false (dc : DataCenter)
    (h : dc.sds.any (fun sd => !sd.master && sd.active) = false) : dcMasterInv dc = true := by
  simp [dcMasterInv, h]

theorem dcMasterInv_deact_nonmasters (dc : DataCenter) :
    dcMasterInv (dcSetGroup (fun sd => !sd.master) false dc) = true := by
  refine dcMasterInv_of_any_false _ ?_
  simp only [dcSetGroup, List.any_map, List.any_eq_false, Function.comp]
  intro sd _
  by_cases hm : sd.master <;> simp [hm]

theorem dcMasterInv_deact_masters_after_nonmasters (dc : DataCenter) :
    dcMasterInv (dcSetGroup (fun sd => sd.master) false
      (dcSetGroup (fun sd => !sd.master) false dc)) = true := by
  refine dcMasterInv_of_any_false _ ?_
  simp only [dcSetGroup, List.map_map, List.any_map, List.any_eq_false, Function.comp]
  intro sd _
  by_cases hm : sd.master <;> simp [hm]

theorem dcMasterInv_act_masters (dc : DataCenter) :
    dcMasterInv (dcSetGroup (fun sd => sd.master) true dc) = true := by
  refine dcMasterInv_of_all _ ?_
  simp only [dcSetGroup, List.all_map, List.all_eq_true, Function.comp]
  intro sd _
  by_cases hm : sd.master <;> simp [hm]

theorem dcMasterInv_act_nonmasters_after_masters (dc : DataCenter) :
    dcMasterInv (dcSetGroup (fun sd => !sd.master) true
      (dcSetGroup (fun sd => sd.master) true dc)) = true := by
  refine dcMasterInv_of_all _ ?_
  simp only [dcSetGroup, List.map_map, List.all_map, List.all_eq_true, Function.comp]
  intro sd _
  by_cases hm : sd.master <;> simp [hm]

theorem masterInv_cons (dc : DataCenter) (rest : List DataCenter) :
    masterInv (dc :: rest) = (dcMasterInv dc && masterInv rest) := by
  simp [masterInv]

theorem deactivateAllSdStates_inv :
    ∀ env : List DataCenter, masterInv env = true →
      ∀ s ∈ deactivateAllSdStates env, masterInv s = true := by
  intro env
  induction env with
  | nil => simp [deactivateAllSdStates]
  | cons dc rest ih =>
    intro hinv s hs
    have hrest : masterInv rest = true := by
      rw [masterInv_cons] at hinv
      exact (by simpa using hinv : dcMasterInv dc = true ∧ masterInv rest = true).2
    simp only [deactivateAllSdStates, List.mem_cons, List.mem_map] at hs
    rcases hs with rfl | rfl | ⟨s', hs', rfl⟩
    · rw [masterInv_cons, dcMasterInv_deact_nonmasters, hrest]
      rfl
    · rw [masterInv_cons, dcMasterInv_deact_masters_after_nonmasters, hrest]
      rfl
    · rw [masterInv_cons, dcMasterInv_deact_masters_after_nonmasters, ih hrest s' hs']
      rfl

theorem activateAllSdStates_inv :
    ∀ env : List DataCenter, masterInv env = true →
      ∀ s ∈ activateAllSdStates env, masterInv s = true := by
  intro env
  induction env with
  | nil => simp [activateAllSdStates]
  | cons dc rest ih =>
    intro hinv s hs
    have hrest : masterInv rest = true := by
      rw [masterInv_cons] at hinv
      exact (by simpa using hinv : dcMasterInv dc = true ∧ masterInv rest = true).2
    simp only [activateAllSdStates, List.mem_cons, List.mem_map] at hs
    rcases hs with rfl | rfl | ⟨s', hs', rfl⟩
    · rw [masterInv_cons, dcMasterInv_act_masters, hrest]
      rfl
    · rw [masterInv_cons, dcMasterInv_act_nonmasters_after_masters, hrest]
      rfl
    · rw [masterInv_cons, dcMasterInv_act_nonmasters_after_masters, ih hrest s' hs']
      rfl

/-- Claim C2: `_deactivate_all_storage_domains` deactivates, per data
center, all non-master domains before the master domain, and
`_activate_all_storage_domains` activates the master domain before any
non-master domain; starting from any environment satisfying the §3
invariant — a master domain is active whenever any non-master domain of
the same data center is active — the invariant holds at every group
boundary of both full sweeps. -/
theorem full_sweeps_preserve_master_invariant (env : List DataCenter)
    (hinv : masterInv env = true) :
    (∀ s ∈ deactivateAllSdStates env, masterInv s = true) ∧
    (∀ s ∈ activateAllSdStates env, masterInv s = true) :=
  ⟨deactivateAllSdStates_inv env hinv, activateAllSdStates_inv env hinv⟩

/-- Witness for C2 at the spec's scenario environment: data center `dc1`
with domains `master_sd` and `sd2`, both active, plus a second data
center; the invariant holds at every group boundary of the
deactivation and of the activation sweep. -/
theorem full_sweeps_preserve_master_invariant_witness :
    (∀ s ∈ deactivateAllSdStates
        [{ id := 1, sds := [{ name := "master_sd", master := true, active := true },
                            { name := "sd2", master := false, active := true }] },
         { id := 2, sds := [{ name := "m2", master := true, active := false }] }],
      masterInv s = true) ∧
    (∀ s ∈ activateAllSdStates
        [{ id := 1, sds := [{ name := "master_sd", master := true, active := true },
                            { name := "sd2", master := false, active := true }] },
         { id := 2, sds := [{ name := "m2", master := true, active := false }] }],
      masterInv s = true) :=
  full_sweeps_preserve_master_invariant
    [{ id := 1, sds := [{ name := "master_sd", master := true, active := true },
                        { name := "sd2", master := false, active := true }] },
     { id := 2, sds := [{ name := "m2", master := true, active := false }] }]
    (by decide)

/-- Claim C8: whenever `prepare_repo` is called with
`vdsm_jsonrpc_java_dir` set and a non-empty engine distribution list,
the additional job appended by that branch is a second
`_build_engine_rpms` partial with exactly the engine build job's
arguments — so when an engine build is scheduled, that job appears twice
— and no input ever makes `prepare_repo` schedule the dedicated
`_build_vdsm_jsonrpc_java_rpms` job. -/
theorem prepare_repo_jsonrpc_branch_builds_engine :
    (∀ (args : PrepareRepoArgs) (engine_dists vdsm_dists repos : List String)
        (build_dir : String → String),
      args.vdsm_jsonrpc_java_dir.isSome → engine_dists ≠ [] →
      prepare_repo_jobs args engine_dists vdsm_dists repos build_dir =
        prepare_repo_jobs { args with vdsm_jsonrpc_java_dir := Option.none }
          engine_dists vdsm_dists repos build_dir ++
          [RepoJob.buildEngine args.engine_dir (build_dir "ovirt-engine") engine_dists
            args.engine_build_gwt]) ∧
    (∀ (args : PrepareRepoArgs) (engine_dists vdsm_dists repos : List String)
        (build_dir : String → String),
      args.vdsm_jsonrpc_java_dir.isSome → engine_dists ≠ [] → args.engine_dir.isSome →
      (prepare_repo_jobs args engine_dists vdsm_dists repos build_dir).count
        (RepoJob.buildEngine args.engine_dir (build_dir "ovirt-engine") engine_dists
          args.engine_build_gwt) = 2) ∧
    (∀ (args : PrepareRepoArgs) (engine_dists vdsm_dists repos : List String)
        (build_dir : String → String) (d : Option String) (o : String) (ds : List String),
      RepoJob.buildJsonrpcJava d o ds ∉
        prepare_repo_jobs args engine_dists vdsm_dists repos build_dir) := by
  refine ⟨?_, ?_, ?_⟩
  · intro args ed vd repos bd h1 h2
    simp [prepare_repo_jobs, h1, h2]
  · intro args ed vd repos bd h1 h2 h3
    by_cases hs : args.rpm_repo.isSome ∧ args.reposync_yum_config.isSome ∧ ¬args.skip_sync <;>
      by_cases hv : args.vdsm_dir.isSome ∧ vd ≠ [] <;>
        simp [prepare_repo_jobs, h1, h2, h3, hs, hv, List.count_append, List.count_cons,
          List.count_nil] <;>
        split <;> simp
  · intro args ed vd repos bd d o ds hmem
    simp only [prepare_repo_jobs, List.mem_append] at hmem
    rcases hmem with ((h | h) | h) | h <;> split at h <;> simp_all

/-- Witness for C8 at concrete arguments with `vdsm_jsonrpc_java_dir`
and `engine_dir` both set and one engine distro detected: the engine
build job is scheduled exactly twice and no vdsm-jsonrpc-java job is
scheduled. -/
theorem prepare_repo_jsonrpc_branch_builds_engine_witness :
    (prepare_repo_jobs
        { rpm_repo := Option.none, reposync_yum_config := Option.none, skip_sync := false,
          vdsm_dir := Option.none, engine_dir := Option.some "/src/engine",
          engine_build_gwt := true, vdsm_jsonrpc_java_dir := Option.some "/src/jsonrpc" }
        ["el7"] [] [] (fun s => s)).count
      (RepoJob.buildEngine (Option.some "/src/engine") "ovirt-engine" ["el7"] true) = 2 ∧
    RepoJob.buildJsonrpcJava (Option.some "/src/jsonrpc") "vdsm-jsonrpc-java" ["el7"] ∉
      prepare_repo_jobs
        { rpm_repo := Option.none, reposync_yum_config := Option.none, skip_sync := false,
          vdsm_dir := Option.none, engine_dir := Option.some "/src/engine",
          engine_build_gwt := true, vdsm_jsonrpc_java_dir := Option.some "/src/jsonrpc" }
        ["el7"] [] [] (fun s => s) :=
  ⟨prepare_repo_jsonrpc_branch_builds_engine.2.1
      { rpm_repo := Option.none, reposync_yum_config := Option.none, skip_sync := false,
        vdsm_dir := Option.none, engine_dir := Option.some "/src/engine",
        engine_build_gwt := true, vdsm_jsonrpc_java_dir := Option.some "/src/jsonrpc" }
      ["el7"] [] [] (fun s => s) (by decide) (by decide) (by decide),
    prepare_repo_jsonrpc_branch_builds_engine.2.2
      { rpm_repo := Option.none, reposync_yum_config := Option.none, skip_sync := false,
        vdsm_dir := Option.none, engine_dir := Option.some "/src/engine",
        engine_build_gwt := true, vdsm_jsonrpc_java_dir := Option.some "/src/jsonrpc" }
      ["el7"] [] [] (fun s => s) (Option.some "/src/jsonrpc") "vdsm-jsonrpc-java" ["el7"]⟩

/-! Helper lemmas for the revert model. -/

theorem dcSetGroup_both_active (dc : DataCenter) :
    ∀ sd ∈ (dcSetGroup (fun sd => !sd.master) true
      (dcSetGroup (fun sd => sd.master) true dc)).sds, sd.active = true := by
  intro sd hsd
  simp only [dcSetGroup, List.map_map, List.mem_map, Function.comp] at hsd
  rcases hsd with ⟨sd0, _, rfl⟩
  by_cases hm : sd0.master <;> simp [hm]

/-- Claim C10: `revert_snapshots(name)` always reactivates the
environment after the base-class revert: its trace is the revert
followed by an SSH wait for every VM, then an activate request for every
host, then the storage-domain activations (masters first within each
data center), and whatever state the revert left, the final state has
every host `up` and every storage domain `active` — the post-state of a
revert is Running. -/
theorem revert_snapshots_reactivates (name : String) (vms : List String)
    (hosts : List HostEnt) (env : List DataCenter) :
    (revert_snapshots name vms hosts env).1 =
      RevertEvent.revertBase name ::
        (vms.map RevertEvent.waitSsh ++
          hosts.map (fun h => RevertEvent.hostActivate h.name) ++
          activateAllSdEvents env) ∧
    (∀ h ∈ (revert_snapshots name vms hosts env).2.1, h.up = true) ∧
    (∀ dc ∈ (revert_snapshots name vms hosts env).2.2, ∀ sd ∈ dc.sds, sd.active = true) := by
  refine ⟨rfl, ?_, ?_⟩
  · intro h hh
    simp only [revert_snapshots, activateFinalState, List.mem_map] at hh
    rcases hh with ⟨h0, _, rfl⟩
    rfl
  · intro dc hdc
    simp only [revert_snapshots, activateFinalState, List.mem_map] at hdc
    rcases hdc with ⟨dc0, _, rfl⟩
    exact dcSetGroup_both_active dc0

/-- Witness for C10 at a concrete reverted environment with one VM, one
downed host and one data center holding an inactive master and an
inactive plain domain: the trace is explicit and the final state is
Running. -/
theorem revert_snapshots_reactivates_witness :
    (revert_snapshots "baseline" ["vm0"]
        [{ name := "host0", up := false }]
        [{ id := 1, sds := [{ name := "master_sd", master := true, active := false },
                            { name := "sd2", master := false, active := false }] }]).1 =
      [RevertEvent.revertBase "baseline", RevertEvent.waitSsh "vm0",
       RevertEvent.hostActivate "host0", RevertEvent.sdActivate "master_sd",
       RevertEvent.sdActivate "sd2"] ∧
    ({ name := "host0", up := true } : HostEnt).up = true ∧
    ({ name := "sd2", master := false, active := true } : SdEnt).active = true := by
  have h := revert_snapshots_reactivates "baseline" ["vm0"]
    [{ name := "host0", up := false }]
    [{ id := 1, sds := [{ name := "master_sd", master := true, active := false },
                        { name := "sd2", master := false, active := false }] }]
  refine ⟨?_, ?_, ?_⟩
  · rw [h.1]
    rfl
  · exact h.2.1 { name := "host0", up := true } (by decide)
  · refine h.2.2
      { id := 1, sds := [{ name := "master_sd", master := true, active := true },
                         { name := "sd2", master := false, active := true }] } (by decide)
      { name := "sd2", master := false, active := true } (by decide)

/-! Helper lemmas about the snapshot transaction. -/

theorem stopHostJob_no_match (fault : Option SnapFault) (h : Nat)
    (h1 : fault ≠ Option.some (SnapFault.atVdsmdStop h))
    (h2 : fault ≠ Option.some (SnapFault.atSupervdsmdStop h)) :
    stopHostJob fault h =
      ([SnapEvent.vdsmdStop h, SnapEvent.supervdsmdStop h],
        [SnapEvent.vdsmdStart h, SnapEvent.supervdsmdStart h], Option.none) := by
  simp [stopHostJob, h1, h2]

theorem stopHostJob_fault_inv (fault : Option SnapFault) (h : Nat) (g : SnapFault)
    (hg : (stopHostJob fault h).2.2 = Option.some g) : fault = Option.some g := by
  unfold stopHostJob at hg
  by_cases h1 : fault = Option.some (SnapFault.atVdsmdStop h)
  · rw [if_pos h1] at hg
    rw [h1]
    exact hg
  · rw [if_neg h1] at hg
    by_cases h2 : fault = Option.some (SnapFault.atSupervdsmdStop h)
    · rw [if_pos h2] at hg
      rw [h2]
      exact hg
    · rw [if_neg h2] at hg
      simp at hg

theorem snapshotRun_jobs_clean (fault : Option SnapFault) (hosts : List Nat)
    (hclean : ∀ h ∈ hosts, fault ≠ Option.some (SnapFault.atVdsmdStop h) ∧
      fault ≠ Option.some (SnapFault.atSupervdsmdStop h)) :
    hosts.map (stopHostJob fault) =
      hosts.map (fun h => ([SnapEvent.vdsmdStop h, SnapEvent.supervdsmdStop h],
        [SnapEvent.vdsmdStart h, SnapEvent.supervdsmdStart h], Option.none)) :=
  List.map_congr_left (fun h hh =>
    stopHostJob_no_match fault h (hclean h hh).1 (hclean h hh).2)

theorem snapshotRun_clean_core (fault : Option SnapFault) (hosts : List Nat)
    (hclean : ∀ h ∈ hosts, fault ≠ Option.some (SnapFault.atVdsmdStop h) ∧
      fault ≠ Option.some (SnapFault.atSupervdsmdStop h)) :
    ((hosts.map (stopHostJob fault)).map (fun j => j.1)).flatten = hostStopEvents hosts ∧
    ((hosts.map (stopHostJob fault)).map (fun j => j.2.1)).flatten = hostStartUndos hosts ∧
    (hosts.map (stopHostJob fault)).filterMap (fun j => j.2.2) = [] := by
  rw [snapshotRun_jobs_clean fault hosts hclean]
  refine ⟨?_, ?_, ?_⟩
  · simp only [List.map_map, hostStopEvents]
    exact congrArg List.flatten (List.map_congr_left (fun h _ => rfl))
  · simp only [List.map_map, hostStartUndos]
    exact congrArg List.flatten (List.map_congr_left (fun h _ => rfl))
  rw [List.filterMap_eq_nil_iff]
  intro j hj
  rcases List.mem_map.mp hj with ⟨h, _, rfl⟩
  rfl

theorem snapshotRun_none (hosts : List Nat) (name : String) (restore : Bool) :
    snapshotRun hosts name restore Option.none =
      ([SnapEvent.deactivateEnv, SnapEvent.engineStop] ++ hostStopEvents hosts ++
          [SnapEvent.capture name],
        if restore then
          [SnapEvent.activateEnv, SnapEvent.getApi, SnapEvent.engineStart] ++
            hostStartUndos hosts
        else [],
        Except.ok ()) := by
  obtain ⟨he, hr, hf⟩ := snapshotRun_clean_core Option.none hosts (by simp)
  simp only [snapshotRun, he, hr, hf]
  by_cases hres : restore <;> simp [hres]

theorem snapshotRun_atCapture (hosts : List Nat) (name : String) (restore : Bool) :
    snapshotRun hosts name restore (Option.some SnapFault.atCapture) =
      ([SnapEvent.deactivateEnv, SnapEvent.engineStop] ++ hostStopEvents hosts,
        [SnapEvent.activateEnv, SnapEvent.getApi, SnapEvent.engineStart] ++
          hostStartUndos hosts,
        Except.error SnapFault.atCapture) := by
  obtain ⟨he, hr, hf⟩ := snapshotRun_clean_core (Option.some SnapFault.atCapture) hosts
    (by simp)
  simp only [snapshotRun, he, hr, hf]
  simp [List.append_assoc]

theorem head?_eq_of_mem_of_all {α : Type} (l : List α) (a : α) (ha : a ∈ l)
    (hall : ∀ x ∈ l, x = a) : l.head? = Option.some a := by
  cases l with
  | nil => cases ha
  | cons x xs =>
    simp only [List.head?_cons, Option.some.injEq]
    exact hall x (List.mem_cons_self x xs)

theorem snapshotRun_hostFault (hosts : List Nat) (name : String) (restore : Bool)
    (f : SnapFault) (h : Nat)
    (hf : f = SnapFault.atVdsmdStop h ∨ f = SnapFault.atSupervdsmdStop h) (hh : h ∈ hosts) :
    (snapshotRun hosts name restore (Option.some f)).2.2 = Except.error f := by
  have hj22 : (stopHostJob (Option.some f) h).2.2 = Option.some f := by
    rcases hf with rfl | rfl <;> simp [stopHostJob]
  have hmem : f ∈ (hosts.map (stopHostJob (Option.some f))).filterMap (fun j => j.2.2) :=
    List.mem_filterMap.mpr ⟨stopHostJob (Option.some f) h, List.mem_map_of_mem _ hh, hj22⟩
  have hall : ∀ g ∈ (hosts.map (stopHostJob (Option.some f))).filterMap (fun j => j.2.2),
      g = f := by
    intro g hg
    rcases List.mem_filterMap.mp hg with ⟨j, hj, hjf⟩
    rcases List.mem_map.mp hj with ⟨x, _, rfl⟩
    have := stopHostJob_fault_inv (Option.some f) x g hjf
    injection this with h'
    exact h'.symm
  have hhead := head?_eq_of_mem_of_all _ f hmem hall
  have hne1 : Option.some f ≠ Option.some SnapFault.atDeactivate := by
    rcases hf with rfl | rfl <;> simp
  have hne2 : Option.some f ≠ Option.some SnapFault.atEngineStop := by
    rcases hf with rfl | rfl <;> simp
  simp only [snapshotRun, if_neg hne1, if_neg hne2, hhead]

theorem hostStopEvents_isUndo (l : List Nat) :
    ∀ e ∈ hostStopEvents l, e.isUndo = false := by
  intro e he
  simp only [hostStopEvents, List.mem_flatten, List.mem_map] at he
  rcases he with ⟨_, ⟨h, _, rfl⟩, he⟩
  rcases List.mem_cons.mp he with rfl | he
  · rfl
  · rcases List.mem_singleton.mp he with rfl
    rfl

theorem capture_not_mem_hostStopEvents (nm : String) (l : List Nat) :
    SnapEvent.capture nm ∉ hostStopEvents l := by
  intro hmem
  simp only [hostStopEvents, List.mem_flatten, List.mem_map] at hmem
  rcases hmem with ⟨_, ⟨h, _, rfl⟩, he⟩
  simp at he

theorem capture_not_mem_hostStartUndos (nm : String) (l : List Nat) :
    SnapEvent.capture nm ∉ hostStartUndos l := by
  intro hmem
  simp only [hostStartUndos, List.mem_flatten, List.mem_map] at hmem
  rcases hmem with ⟨_, ⟨h, _, rfl⟩, he⟩
  simp at he

theorem runTrace_append (s : SnapState) (l1 l2 : List SnapEvent) :
    runTrace s (l1 ++ l2) = runTrace (runTrace s l1) l2 := by
  simp [runTrace, List.foldl_append]

theorem runTrace_hostStops (l : List Nat) :
    ∀ s : SnapState,
      (runTrace s (hostStopEvents l)).envActive = s.envActive ∧
      (runTrace s (hostStopEvents l)).engineUp = s.engineUp ∧
      (runTrace s (hostStopEvents l)).snapshots = s.snapshots ∧
      (∀ i, (runTrace s (hostStopEvents l)).vdsmdUp i =
        (if i ∈ l then false else s.vdsmdUp i)) ∧
      (∀ i, (runTrace s (hostStopEvents l)).supervdsmdUp i =
        (if i ∈ l then false else s.supervdsmdUp i)) := by
  induction l with
  | nil =>
    intro s
    simp [hostStopEvents, runTrace]
  | cons h t ih =>
    intro s
    rw [show hostStopEvents (h :: t) =
      [SnapEvent.vdsmdStop h, SnapEvent.supervdsmdStop h] ++ hostStopEvents t from
        by simp [hostStopEvents], runTrace_append]
    obtain ⟨h1, h2, h3, h4, h5⟩ :=
      ih (runTrace s [SnapEvent.vdsmdStop h, SnapEvent.supervdsmdStop h])
    refine ⟨by rw [h1]; rfl, by rw [h2]; rfl, by rw [h3]; rfl, ?_, ?_⟩
    · intro i
      rw [h4 i]
      by_cases hih : i = h <;> by_cases hit : i ∈ t <;>
        simp [runTrace, SnapState.applyEvent, hih, hit, List.mem_cons]
    · intro i
      rw [h5 i]
      by_cases hih : i = h <;> by_cases hit : i ∈ t <;>
        simp [runTrace, SnapState.applyEvent, hih, hit, List.mem_cons]

theorem runTrace_startPairs (m : List Nat) :
    ∀ s : SnapState,
      (runTrace s ((m.map (fun h =>
          [SnapEvent.supervdsmdStart h, SnapEvent.vdsmdStart h])).flatten)).envActive =
        s.envActive ∧
      (runTrace s ((m.map (fun h =>
          [SnapEvent.supervdsmdStart h, SnapEvent.vdsmdStart h])).flatten)).engineUp =
        s.engineUp ∧
      (runTrace s ((m.map (fun h =>
          [SnapEvent.supervdsmdStart h, SnapEvent.vdsmdStart h])).flatten)).snapshots =
        s.snapshots ∧
      (∀ i, (runTrace s ((m.map (fun h =>
          [SnapEvent.supervdsmdStart h, SnapEvent.vdsmdStart h])).flatten)).vdsmdUp i =
        (if i ∈ m then true else s.vdsmdUp i)) ∧
      (∀ i, (runTrace s ((m.map (fun h =>
          [SnapEvent.supervdsmdStart h, SnapEvent.vdsmdStart h])).flatten)).supervdsmdUp i =
        (if i ∈ m then true else s.supervdsmdUp i)) := by
  induction m with
  | nil =>
    intro s
    simp [runTrace]
  | cons h t ih =>
    intro s
    rw [show ((h :: t).map (fun h =>
        [SnapEvent.supervdsmdStart h, SnapEvent.vdsmdStart h])).flatten =
      [SnapEvent.supervdsmdStart h, SnapEvent.vdsmdStart h] ++
        ((t.map (fun h =>
          [SnapEvent.supervdsmdStart h, SnapEvent.vdsmdStart h])).flatten) from
        by simp, runTrace_append]
    obtain ⟨h1, h2, h3, h4, h5⟩ :=
      ih (runTrace s [SnapEvent.supervdsmdStart h, SnapEvent.vdsmdStart h])
    refine ⟨by rw [h1]; rfl, by rw [h2]; rfl, by rw [h3]; rfl, ?_, ?_⟩
    · intro i
      rw [h4 i]
      by_cases hih : i = h <;> by_cases hit : i ∈ t <;>
        simp [runTrace, SnapState.applyEvent, hih, hit, List.mem_cons]
    · intro i
      rw [h5 i]
      by_cases hih : i = h <;> by_cases hit : i ∈ t <;>
        simp [runTrace, SnapState.applyEvent, hih, hit, List.mem_cons]

theorem hostStartUndos_reverse (l : List Nat) :
    (hostStartUndos l).reverse =
      (l.reverse.map (fun h =>
        [SnapEvent.supervdsmdStart h, SnapEvent.vdsmdStart h])).flatten := by
  induction l with
  | nil => rfl
  | cons h t ih =>
    rw [show hostStartUndos (h :: t) =
      [SnapEvent.vdsmdStart h, SnapEvent.supervdsmdStart h] ++ hostStartUndos t from
        by simp [hostStartUndos], List.reverse_append, ih]
    simp

/-- Claim C1: for every run of the snapshot transaction in which a step
after opening the rollback stack fails — deactivation, engine stop, a
host service stop, or the capture itself — the original failure
propagates as the result, the trace is the forward steps followed by
every undo registered up to the failure in strict last-registered-first
order, and in the deepest case (capture failure) the unwind concretely
runs the host service restarts (hosts in reverse order, `supervdsmd`
before `vdsmd`), then the engine restart and API refresh, then the
environment reactivation. -/
theorem create_snapshots_unwinds_on_failure (hosts : List Nat) (name : String)
    (restore : Bool) (f : SnapFault) (hf : f.valid hosts) :
    (create_snapshots hosts name restore (Option.some f)).2 = Except.error f ∧
    (create_snapshots hosts name restore (Option.some f)).1 =
      (snapshotRun hosts name restore (Option.some f)).1 ++
        (snapshotRun hosts name restore (Option.some f)).2.1.reverse ∧
    (create_snapshots hosts name restore (Option.some SnapFault.atCapture)).1 =
      [SnapEvent.deactivateEnv, SnapEvent.engineStop] ++ hostStopEvents hosts ++
        ((hosts.reverse.map (fun h =>
            [SnapEvent.supervdsmdStart h, SnapEvent.vdsmdStart h])).flatten ++
          [SnapEvent.engineStart, SnapEvent.getApi, SnapEvent.activateEnv]) := by
  refine ⟨?_, rfl, ?_⟩
  · show (snapshotRun hosts name restore (Option.some f)).2.2 = Except.error f
    cases f with
    | atDeactivate => rfl
    | atEngineStop => simp [snapshotRun]
    | atVdsmdStop h =>
      exact snapshotRun_hostFault hosts name restore _ h (Or.inl rfl) hf
    | atSupervdsmdStop h =>
      exact snapshotRun_hostFault hosts name restore _ h (Or.inr rfl) hf
    | atCapture => rw [snapshotRun_atCapture]
  · show (snapshotRun hosts name restore (Option.some SnapFault.atCapture)).1 ++
      (snapshotRun hosts name restore (Option.some SnapFault.atCapture)).2.1.reverse = _
    rw [snapshotRun_atCapture]
    simp only [List.reverse_append, hostStartUndos_reverse]
    simp

/-- Witness for C1: in a two-host environment with a fault injected at
host 2's `vdsmd` stop, the failure propagates and the trace ends with
the registered undos — host 1's service restarts, the engine restart and
API refresh, then the environment reactivation. -/
theorem create_snapshots_unwinds_on_failure_witness :
    (create_snapshots [1, 2] "snap" true
        (Option.some (SnapFault.atVdsmdStop 2))).2 =
      Except.error (SnapFault.atVdsmdStop 2) ∧
    (create_snapshots [1, 2] "snap" true
        (Option.some (SnapFault.atVdsmdStop 2))).1 =
      [SnapEvent.deactivateEnv, SnapEvent.engineStop,
       SnapEvent.vdsmdStop 1, SnapEvent.supervdsmdStop 1,
       SnapEvent.supervdsmdStart 1, SnapEvent.vdsmdStart 1,
       SnapEvent.engineStart, SnapEvent.getApi, SnapEvent.activateEnv] := by
  have h := create_snapshots_unwinds_on_failure [1, 2] "snap" true
    (SnapFault.atVdsmdStop 2) (by simp [SnapFault.valid])
  refine ⟨h.1, ?_⟩
  rw [h.2.1]
  rfl

theorem runTrace_quiesce_head :
    runTrace SnapState.running0 [SnapEvent.deactivateEnv, SnapEvent.engineStop] =
      { envActive := false, engineUp := false, vdsmdUp := fun _ => true,
        supervdsmdUp := fun _ => true, snapshots := [] } := rfl

theorem runTrace_capture_fields (y : SnapState) (n : String) :
    (runTrace y [SnapEvent.capture n]).envActive = y.envActive ∧
    (runTrace y [SnapEvent.capture n]).engineUp = y.engineUp ∧
    (∀ i, (runTrace y [SnapEvent.capture n]).vdsmdUp i = y.vdsmdUp i) ∧
    (∀ i, (runTrace y [SnapEvent.capture n]).supervdsmdUp i = y.supervdsmdUp i) ∧
    (runTrace y [SnapEvent.capture n]).snapshots = y.snapshots ++ [n] :=
  ⟨rfl, rfl, fun _ => rfl, fun _ => rfl, rfl⟩

theorem runTrace_finale_fields (y : SnapState) :
    (runTrace y [SnapEvent.engineStart, SnapEvent.getApi, SnapEvent.activateEnv]).envActive =
      true ∧
    (runTrace y [SnapEvent.engineStart, SnapEvent.getApi, SnapEvent.activateEnv]).engineUp =
      true ∧
    (∀ i, (runTrace y
      [SnapEvent.engineStart, SnapEvent.getApi, SnapEvent.activateEnv]).vdsmdUp i =
        y.vdsmdUp i) ∧
    (∀ i, (runTrace y
      [SnapEvent.engineStart, SnapEvent.getApi, SnapEvent.activateEnv]).supervdsmdUp i =
        y.supervdsmdUp i) ∧
    (runTrace y [SnapEvent.engineStart, SnapEvent.getApi, SnapEvent.activateEnv]).snapshots =
      y.snapshots :=
  ⟨rfl, rfl, fun _ => rfl, fun _ => rfl, rfl⟩

/-- Claim C4: on a successful capture the registered undos run exactly
when the caller asked for immediate restoration.  With `restore=False`
the rollback stack is cleared: the trace is the forward steps only, with
no undo action in it, the environment ends deactivated, and the snapshot
is captured exactly once.  With `restore=True` every registered undo
runs in reverse registration order after the capture, and from a fully
Running environment the final state is Running again — environment
active, engine up, every host's services up — with the named snapshot
captured exactly once. -/
theorem create_snapshots_success_semantics (hosts : List Nat) (name : String) :
    (create_snapshots hosts name false Option.none).2 = Except.ok () ∧
    (create_snapshots hosts name false Option.none).1 =
      [SnapEvent.deactivateEnv, SnapEvent.engineStop] ++ hostStopEvents hosts ++
        [SnapEvent.capture name] ∧
    (∀ e ∈ (create_snapshots hosts name false Option.none).1, e.isUndo = false) ∧
    (runTrace SnapState.running0
      (create_snapshots hosts name false Option.none).1).envActive = false ∧
    (runTrace SnapState.running0
      (create_snapshots hosts name false Option.none).1).snapshots = [name] ∧
    (create_snapshots hosts name true Option.none).2 = Except.ok () ∧
    (create_snapshots hosts name true Option.none).1 =
      ([SnapEvent.deactivateEnv, SnapEvent.engineStop] ++ hostStopEvents hosts ++
        [SnapEvent.capture name]) ++
        ([SnapEvent.activateEnv, SnapEvent.getApi, SnapEvent.engineStart] ++
          hostStartUndos hosts).reverse ∧
    (create_snapshots hosts name true Option.none).1.count (SnapEvent.capture name) = 1 ∧
    (runTrace SnapState.running0
      (create_snapshots hosts name true Option.none).1).envActive = true ∧
    (runTrace SnapState.running0
      (create_snapshots hosts name true Option.none).1).engineUp = true ∧
    (∀ i, (runTrace SnapState.running0
      (create_snapshots hosts name true Option.none).1).vdsmdUp i = true ∧
      (runTrace SnapState.running0
        (create_snapshots hosts name true Option.none).1).supervdsmdUp i = true) ∧
    (runTrace SnapState.running0
      (create_snapshots hosts name true Option.none).1).snapshots = [name] := by
  have htrF : (create_snapshots hosts name false Option.none).1 =
      [SnapEvent.deactivateEnv, SnapEvent.engineStop] ++ hostStopEvents hosts ++
        [SnapEvent.capture name] := by
    simp [create_snapshots, snapshotRun_none]
  have htrT : (create_snapshots hosts name true Option.none).1 =
      ([SnapEvent.deactivateEnv, SnapEvent.engineStop] ++ hostStopEvents hosts ++
        [SnapEvent.capture name]) ++
        ([SnapEvent.activateEnv, SnapEvent.getApi, SnapEvent.engineStart] ++
          hostStartUndos hosts).reverse := by
    simp [create_snapshots, snapshotRun_none]
  have hrev : ([SnapEvent.activateEnv, SnapEvent.getApi, SnapEvent.engineStart] ++
      hostStartUndos hosts).reverse =
      (hosts.reverse.map (fun h =>
        [SnapEvent.supervdsmdStart h, SnapEvent.vdsmdStart h])).flatten ++
        [SnapEvent.engineStart, SnapEvent.getApi, SnapEvent.activateEnv] := by
    rw [List.reverse_append, hostStartUndos_reverse]
    rfl
  refine ⟨by simp [create_snapshots, snapshotRun_none], htrF, ?_, ?_, ?_,
    by simp [create_snapshots, snapshotRun_none], htrT, ?_, ?_, ?_, ?_, ?_⟩
  · -- no undo action in the restore=False trace
    intro e he
    rw [htrF] at he
    rcases List.mem_append.mp he with he | he
    · rcases List.mem_append.mp he with he | he
      · rcases List.mem_cons.mp he with rfl | he
        · rfl
        · rcases List.mem_singleton.mp he with rfl
          rfl
      · exact hostStopEvents_isUndo hosts e he
    · rcases List.mem_singleton.mp he with rfl
      rfl
  · -- restore=False leaves the environment deactivated
    rw [htrF]
    simp only [runTrace_append]
    rw [(runTrace_capture_fields _ name).1]
    rw [(runTrace_hostStops hosts _).1, runTrace_quiesce_head]
  · -- restore=False captures the snapshot exactly once
    rw [htrF]
    simp only [runTrace_append]
    rw [(runTrace_capture_fields _ name).2.2.2.2]
    rw [(runTrace_hostStops hosts _).2.2.1, runTrace_quiesce_head]
    rfl
  · -- restore=True captures exactly once (trace-level count)
    rw [htrT]
    simp [List.count_append, List.count_reverse,
      List.count_eq_zero.mpr (capture_not_mem_hostStopEvents name hosts),
      List.count_eq_zero.mpr (capture_not_mem_hostStartUndos name hosts)]
  · -- restore=True reactivates the environment
    rw [htrT, hrev]
    simp only [runTrace_append]
    exact (runTrace_finale_fields _).1
  · -- restore=True restarts the engine
    rw [htrT, hrev]
    simp only [runTrace_append]
    exact (runTrace_finale_fields _).2.1
  · -- restore=True restarts every host service
    intro i
    rw [htrT, hrev]
    simp only [runTrace_append]
    rw [(runTrace_finale_fields _).2.2.1 i, (runTrace_finale_fields _).2.2.2.1 i]
    rw [(runTrace_startPairs hosts.reverse _).2.2.2.1 i,
      (runTrace_startPairs hosts.reverse _).2.2.2.2 i]
    rw [(runTrace_capture_fields _ name).2.2.1 i, (runTrace_capture_fields _ name).2.2.2.1 i]
    rw [(runTrace_hostStops hosts _).2.2.2.1 i, (runTrace_hostStops hosts _).2.2.2.2 i]
    rw [runTrace_quiesce_head]
    by_cases hih : i ∈ hosts <;> simp [List.mem_reverse, hih]
  · -- restore=True ends with the snapshot captured exactly once
    rw [htrT, hrev]
    simp only [runTrace_append]
    rw [(runTrace_finale_fields _).2.2.2.2, (runTrace_startPairs hosts.reverse _).2.2.1]
    rw [(runTrace_capture_fields _ name).2.2.2.2]
    rw [(runTrace_hostStops hosts _).2.2.1, runTrace_quiesce_head]
    rfl

/-- Witness for C4 at a one-host environment and snapshot `baseline`
with `restore=True`: the run succeeds, the final state records exactly
one `baseline` snapshot, forward events are not undos, and host 7's
`vdsmd` is up again at the end. -/
theorem create_snapshots_success_semantics_witness :
    (create_snapshots [7] "baseline" true Option.none).2 = Except.ok () ∧
    (runTrace SnapState.running0
      (create_snapshots [7] "baseline" true Option.none).1).snapshots = ["baseline"] ∧
    SnapEvent.isUndo (SnapEvent.vdsmdStop 7) = false ∧
    (runTrace SnapState.running0
      (create_snapshots [7] "baseline" true Option.none).1).vdsmdUp 7 = true := by
  have h := create_snapshots_success_semantics [7] "baseline"
  exact ⟨h.2.2.2.2.2.1, h.2.2.2.2.2.2.2.2.2.2.2,
    h.2.2.1 (SnapEvent.vdsmdStop 7) (by decide),
    (h.2.2.2.2.2.2.2.2.2.2.1 7).1⟩

end OvirtTestenv
